import Mathlib

/-!
Shallow embedding of the Merkle-tree builder in src/merkle.js.

Digests are modelled as Lean strings (the source passes hex strings around);
the external collaborators from the ethers library (sha256, keccak256,
toUtf8Bytes, randomBytes, concat) are opaque fields of an environment
structure, since the source treats them as black boxes. JavaScript throw
sites become an Except error value; the string comparison in combineHashes
(JavaScript < on strings) is Lean string order, which agrees with it on the
ASCII hex digests the program manipulates.
-/

namespace Merkle

/-- The three throw sites of src/merkle.js, one constructor per distinct
error message. -/
inductive JsError where
  | unsupportedAlgorithm
  | invalidInput
  | emptyInput
  deriving DecidableEq, Repr

/-- The exact message text each throw site passes to the Error constructor. -/
def JsError.message : JsError → String
  | JsError.unsupportedAlgorithm => "Unsupported algorithm. Use \"sha256\" or \"keccak256\""
  | JsError.invalidInput => "Invalid input. Provide result from generateRandomHashes or array of hashes."
  | JsError.emptyInput => "Cannot build Merkle tree from empty array"

/-- The external collaborators imported from the ethers library, treated as
opaque functions. randomBytes32 i is the value returned by the i-th call to
randomBytes(32) within one invocation. -/
structure Env where
  sha256 : String → String
  keccak256 : String → String
  toUtf8Bytes : String → String
  randomBytes32 : Nat → String
  hexConcat : String → String → String

/-- The object returned by generateRandomHashes: a hashes array together
with the algorithm that produced it. -/
structure LeafSet where
  hashes : List String
  algorithm : String
  deriving DecidableEq, Repr

/-- The object returned by hashString. -/
structure HashResult where
  hash : String
  algorithm : String
  deriving DecidableEq, Repr

/-- Loop body of generateRandomHashes: build the hashes array for the
iterations i, i+1, ..., i+remaining-1. Each iteration draws 32 random bytes
and hashes them with the selected algorithm, or throws on an unsupported
identifier (the branch structure mirrors lines 12-25 of src/merkle.js). -/
def genHashesAux (E : Env) (algorithm : String) : Nat → Nat → Except JsError (List String)
  | _, 0 => Except.ok []
  | i, remaining + 1 =>
    let randomData := E.randomBytes32 i
    if algorithm = "sha256" then
      (genHashesAux E algorithm (i + 1) remaining).map (fun rest => E.sha256 randomData :: rest)
    else if algorithm = "keccak256" then
      (genHashesAux E algorithm (i + 1) remaining).map (fun rest => E.keccak256 randomData :: rest)
    else
      Except.error JsError.unsupportedAlgorithm

/-- generateRandomHashes (src/merkle.js lines 9-31). The JavaScript counter
runs a number count of iterations: none when count < 1, hence Int.toNat. -/
def generateRandomHashes (E : Env) (count : Int) (algorithm : String) : Except JsError LeafSet :=
  (genHashesAux E algorithm 0 count.toNat).map
    (fun hashes => { hashes := hashes, algorithm := algorithm })

/-- hashString (src/merkle.js lines 39-55). -/
def hashString (E : Env) (text : String) (algorithm : String) : Except JsError HashResult :=
  let bytes := E.toUtf8Bytes text
  if algorithm = "sha256" then
    Except.ok { hash := E.sha256 bytes, algorithm := algorithm }
  else if algorithm = "keccak256" then
    Except.ok { hash := E.keccak256 bytes, algorithm := algorithm }
  else
    Except.error JsError.unsupportedAlgorithm

/-- combineHashes (src/merkle.js lines 64-77): sort the two digests, hex
concatenate, and hash. Note the source dispatches with a two-way conditional,
so every algorithm other than "sha256" falls to keccak256, and the function
can never throw. -/
def combineHashes (E : Env) (left : String) (right : String) (algorithm : String) : String :=
  let sorted := if left < right then (left, right) else (right, left)
  let combined := E.hexConcat sorted.1 sorted.2
  if algorithm = "sha256" then E.sha256 combined else E.keccak256 combined

/-- The leavesInput argument of buildMerkleRoot: an object carrying hashes
and algorithm fields, a plain array, or anything else (null, a string, a
number, an object without those fields, ...). -/
inductive LeavesInput where
  | leafSet (ls : LeafSet)
  | plainArray (hashes : List String)
  | other
  deriving Repr

/-- One pass of the pairing loop (src/merkle.js lines 130-148): indices
(0,1), (2,3), ... are combined; a final unpaired node is pushed unchanged. -/
def processLevel (E : Env) (algorithm : String) : List String → List String
  | [] => []
  | [x] => [x]
  | x :: y :: rest => combineHashes E x y algorithm :: processLevel E algorithm rest

/-- A pairing pass over n nodes yields the ceiling of n / 2 parent nodes
(matching the count the source logs at line 124). -/
theorem processLevel_length (E : Env) (algorithm : String) :
    ∀ l : List String, (processLevel E algorithm l).length = (l.length + 1) / 2
  | [] => by simp [processLevel]
  | [_] => by simp [processLevel]
  | _ :: _ :: rest => by
    simp [processLevel, processLevel_length E algorithm rest]
    omega

/-- The while loop of src/merkle.js lines 122-159: repeat the pairing pass
while more than one node remains. The two-or-more pattern is the loop guard
currentLevel.length > 1. -/
def reduceLevels (E : Env) (algorithm : String) : List String → List String
  | [] => []
  | [x] => [x]
  | x :: y :: rest => reduceLevels E algorithm (processLevel E algorithm (x :: y :: rest))
  termination_by l => l.length
  decreasing_by simp [processLevel_length]; omega

/-- Number of combineHashes invocations one pairing pass performs. -/
def processLevelCount : List String → Nat
  | [] => 0
  | [_] => 0
  | _ :: _ :: rest => processLevelCount rest + 1

/-- Number of combineHashes invocations the whole while loop performs. -/
def reduceLevelsCount (E : Env) (algorithm : String) : List String → Nat
  | [] => 0
  | [_] => 0
  | x :: y :: rest =>
    processLevelCount (x :: y :: rest)
      + reduceLevelsCount E algorithm (processLevel E algorithm (x :: y :: rest))
  termination_by l => l.length
  decreasing_by simp [processLevel_length]; omega

/-- The body of buildMerkleRoot after input normalization (src/merkle.js
lines 100-168): reject an empty array, otherwise reduce level by level and
return the single remaining node. -/
def buildRootFrom (E : Env) (leaves : List String) (algorithm : String) : Except JsError String :=
  if leaves.length = 0 then Except.error JsError.emptyInput
  else Except.ok ((reduceLevels E algorithm leaves).headD "")

/-- buildMerkleRoot (src/merkle.js lines 85-169). The input shape check of
lines 89-98: an object whose hashes and algorithm fields are truthy uses its
own algorithm (an empty algorithm string is falsy, and the object, not being
an array, then falls to the throw); a plain array takes the override unless
that is absent or empty, in which case the keccak256 default is substituted;
anything else throws. -/
def buildMerkleRoot (E : Env) (leavesInput : LeavesInput) (algorithmOverride : Option String) :
    Except JsError String :=
  match leavesInput with
  | LeavesInput.leafSet ls =>
    if ls.algorithm = "" then Except.error JsError.invalidInput
    else buildRootFrom E ls.hashes ls.algorithm
  | LeavesInput.plainArray hashes =>
    let algorithm :=
      match algorithmOverride with
      | some a => if a = "" then "keccak256" else a
      | none => "keccak256"
    buildRootFrom E hashes algorithm
  | LeavesInput.other => Except.error JsError.invalidInput

/-- combineHashes invocation count of a whole buildMerkleRoot call. -/
def buildMerkleRootCount (E : Env) (leavesInput : LeavesInput) (algorithmOverride : Option String) :
    Nat :=
  match leavesInput with
  | LeavesInput.leafSet ls =>
    if ls.algorithm = "" then 0
    else if ls.hashes.length = 0 then 0
    else reduceLevelsCount E ls.algorithm ls.hashes
  | LeavesInput.plainArray hashes =>
    let algorithm :=
      match algorithmOverride with
      | some a => if a = "" then "keccak256" else a
      | none => "keccak256"
    if hashes.length = 0 then 0 else reduceLevelsCount E algorithm hashes
  | LeavesInput.other => 0

/-- A small concrete environment used to evaluate the embedding on explicit
inputs (tagging functions stand in for the opaque cryptographic ones). -/
def testEnv : Env where
  sha256 := fun s => "S:" ++ s
  keccak256 := fun s => "K:" ++ s
  toUtf8Bytes := fun s => s
  randomBytes32 := fun i => "R:" ++ toString i
  hexConcat := fun a b => a ++ b

/-! ## Helper lemmas -/

/-- A supported algorithm identifier is a truthy (non-empty) string. -/
theorem supported_ne_empty {alg : String} (h : alg = "sha256" ∨ alg = "keccak256") : alg ≠ "" := by
  rcases h with rfl | rfl <;> decide

/-- Swapping the two inputs of the ternary sort leaves its result unchanged. -/
theorem sortPair_comm (a b : String) :
    (if a < b then (a, b) else (b, a)) = (if b < a then (b, a) else (a, b)) := by
  rcases lt_trichotomy a b with h | h | h
  · rw [if_pos h, if_neg (asymm h)]
  · subst h; simp
  · rw [if_neg (asymm h), if_pos h]

/-- Any algorithm string other than "sha256" makes combineHashes take the
keccak256 branch of its two-way conditional. -/
theorem combineHashes_fallback (E : Env) (a b algo : String) (h : algo ≠ "sha256") :
    combineHashes E a b algo = combineHashes E a b "keccak256" := by
  simp [combineHashes, h]

/-- On an object input with a truthy algorithm field, buildMerkleRoot runs
its main body on the object's own hashes and algorithm. -/
theorem buildMerkleRoot_leafSet (E : Env) (ls : LeafSet) (ov : Option String)
    (h : ls.algorithm ≠ "") :
    buildMerkleRoot E (LeavesInput.leafSet ls) ov = buildRootFrom E ls.hashes ls.algorithm := by
  simp [buildMerkleRoot, h]

/-- The while loop brings any non-empty level down to a single node. -/
theorem reduceLevels_length (E : Env) (algorithm : String) :
    ∀ l : List String, l ≠ [] → (reduceLevels E algorithm l).length = 1
  | [], h => absurd rfl h
  | [x], _ => by simp [reduceLevels]
  | x :: y :: rest, _ => by
    rw [reduceLevels]
    apply reduceLevels_length
    have := processLevel_length E algorithm (x :: y :: rest)
    intro hnil
    rw [hnil] at this
    simp at this
    omega
  termination_by l => l.length
  decreasing_by simp [processLevel_length]; omega

/-- The pairing pass commutes with appending one trailing node to a level of
even width: the extra node comes out at the end, untouched. -/
theorem processLevel_append_even (E : Env) (algorithm : String) :
    ∀ (xs : List String) (z : String), xs.length % 2 = 0 →
      processLevel E algorithm (xs ++ [z]) = processLevel E algorithm xs ++ [z]
  | [], _, _ => rfl
  | [_], _, h => by simp at h
  | a :: b :: tail, z, h => by
    have htail : tail.length % 2 = 0 := by
      simp only [List.length_cons] at h
      omega
    simp only [List.cons_append, processLevel, List.append_eq,
      processLevel_append_even E algorithm tail z htail]

/-- Root of a two-node leaf set: the combination of the pair. -/
theorem root_pair (E : Env) (a b alg : String) (ov : Option String) (h : alg ≠ "") :
    buildMerkleRoot E (LeavesInput.leafSet ⟨[a, b], alg⟩) ov =
      Except.ok (combineHashes E a b alg) := by
  rw [buildMerkleRoot_leafSet E _ _ h]
  simp [buildRootFrom, reduceLevels, processLevel]

/-- Root of a three-node leaf set: the odd node c is promoted and combined
at the top. -/
theorem root_three (E : Env) (a b c alg : String) (ov : Option String) (h : alg ≠ "") :
    buildMerkleRoot E (LeavesInput.leafSet ⟨[a, b, c], alg⟩) ov =
      Except.ok (combineHashes E (combineHashes E a b alg) c alg) := by
  rw [buildMerkleRoot_leafSet E _ _ h]
  simp [buildRootFrom, reduceLevels, processLevel]

/-- Root of a four-node leaf set: the balanced two-level reduction. -/
theorem root_four (E : Env) (h1 h2 h3 h4 alg : String) (ov : Option String) (h : alg ≠ "") :
    buildMerkleRoot E (LeavesInput.leafSet ⟨[h1, h2, h3, h4], alg⟩) ov =
      Except.ok
        (combineHashes E (combineHashes E h1 h2 alg) (combineHashes E h3 h4 alg) alg) := by
  rw [buildMerkleRoot_leafSet E _ _ h]
  simp [buildRootFrom, reduceLevels, processLevel]

/-- On a supported algorithm the generation loop never throws and pushes one
hash per iteration. -/
theorem genHashesAux_ok (E : Env) (algorithm : String)
    (halg : algorithm = "sha256" ∨ algorithm = "keccak256") :
    ∀ n i : Nat, ∃ hs : List String,
      genHashesAux E algorithm i n = Except.ok hs ∧ hs.length = n := by
  intro n
  induction n with
  | zero => exact fun i => ⟨[], rfl, rfl⟩
  | succ m ih =>
    intro i
    obtain ⟨hs, hok, hlen⟩ := ih (i + 1)
    rcases halg with rfl | rfl
    · exact ⟨E.sha256 (E.randomBytes32 i) :: hs,
        by simp [genHashesAux, hok, Except.map], by simp [hlen]⟩
    · exact ⟨E.keccak256 (E.randomBytes32 i) :: hs,
        by simp [genHashesAux, hok, Except.map], by simp [hlen]⟩

/-- The hex digests used in the concrete counterexamples compare as
expected under the string order (the kernel cannot unfold the byte-wise
String.ltb, so the comparison goes through the character list order). -/
theorem aa_lt_bb : ("0xaa" : String) < "0xbb" := by
  rw [String.lt_iff_toList_lt]
  decide

/-- The same comparison phrased on the underlying character lists, the form
simp normalizes the string order to. -/
theorem aa_lt_bb_list : (['0', 'x', 'a', 'a'] : List Char) < ['0', 'x', 'b', 'b'] := by
  decide

/-- Concrete evaluation of combineHashes in the test environment for any
algorithm other than "sha256" (all of them take the keccak256 branch). -/
theorem combineHashes_eval (algo : String) (h : algo ≠ "sha256") :
    combineHashes testEnv "0xaa" "0xbb" algo = "K:0xaa0xbb" := by
  simp [combineHashes, aa_lt_bb, aa_lt_bb_list, h, testEnv]

/-! ## Claims -/

/-- Claim C4: in every reduction step over a level of odd length, the final
unpaired digest is appended to the next level unchanged (not re-hashed) as
its last element, and for a three-digest leaf set the root is the promoted
third digest combined with the pair result one level up. -/
theorem odd_node_promotion (E : Env) (alg : String) (xs : List String) (z a b c : String)
    (halg : alg = "sha256" ∨ alg = "keccak256") :
    (xs.length % 2 = 0 →
      processLevel E alg (xs ++ [z]) = processLevel E alg xs ++ [z]) ∧
    buildMerkleRoot E (LeavesInput.leafSet ⟨[a, b, c], alg⟩) none =
      Except.ok (combineHashes E (combineHashes E a b alg) c alg) :=
  ⟨fun h => processLevel_append_even E alg xs z h,
   root_three E a b c alg none (supported_ne_empty halg)⟩

/-- Witness for C4 at concrete inputs. -/
theorem odd_node_promotion_witness :
    (["p", "q"] : List String).length % 2 = 0 ∧
    processLevel testEnv "sha256" (["p", "q"] ++ ["r"]) =
      processLevel testEnv "sha256" ["p", "q"] ++ ["r"] ∧
    buildMerkleRoot testEnv (LeavesInput.leafSet ⟨["a", "b", "c"], "sha256"⟩) none =
      Except.ok (combineHashes testEnv (combineHashes testEnv "a" "b" "sha256") "c" "sha256") :=
  ⟨by decide,
   (odd_node_promotion testEnv "sha256" ["p", "q"] "r" "a" "b" "c" (Or.inl rfl)).1 (by decide),
   (odd_node_promotion testEnv "sha256" ["p", "q"] "r" "a" "b" "c" (Or.inl rfl)).2⟩

/-- Claim C5: each level is scanned left to right in consecutive index
pairs, each complete pair combined and the results appended in order; hence
a two-digest leaf set has root combineHashes a b, and four leaves reduce to
the combination of the two pair combinations. -/
theorem pairing_scan (E : Env) (alg : String) (a b h1 h2 h3 h4 : String) (rest : List String)
    (halg : alg = "sha256" ∨ alg = "keccak256") :
    processLevel E alg (a :: b :: rest) = combineHashes E a b alg :: processLevel E alg rest ∧
    buildMerkleRoot E (LeavesInput.leafSet ⟨[a, b], alg⟩) none =
      Except.ok (combineHashes E a b alg) ∧
    buildMerkleRoot E (LeavesInput.leafSet ⟨[h1, h2, h3, h4], alg⟩) none =
      Except.ok
        (combineHashes E (combineHashes E h1 h2 alg) (combineHashes E h3 h4 alg) alg) :=
  ⟨rfl,
   root_pair E a b alg none (supported_ne_empty halg),
   root_four E h1 h2 h3 h4 alg none (supported_ne_empty halg)⟩

/-- Witness for C5 at concrete inputs. -/
theorem pairing_scan_witness :
    processLevel testEnv "keccak256" ["a", "b", "c"] =
      combineHashes testEnv "a" "b" "keccak256" :: processLevel testEnv "keccak256" ["c"] ∧
    buildMerkleRoot testEnv (LeavesInput.leafSet ⟨["a", "b"], "keccak256"⟩) none =
      Except.ok (combineHashes testEnv "a" "b" "keccak256") ∧
    buildMerkleRoot testEnv (LeavesInput.leafSet ⟨["t1", "t2", "t3", "t4"], "keccak256"⟩) none =
      Except.ok
        (combineHashes testEnv (combineHashes testEnv "t1" "t2" "keccak256")
          (combineHashes testEnv "t3" "t4" "keccak256") "keccak256") :=
  pairing_scan testEnv "keccak256" "a" "b" "t1" "t2" "t3" "t4" ["c"] (Or.inr rfl)

/-- Claim C6: a one-digest leaf set is returned as the root unchanged, with
zero combineHashes invocations. -/
theorem single_leaf_root (E : Env) (d alg : String) (ov : Option String)
    (halg : alg = "sha256" ∨ alg = "keccak256") :
    buildMerkleRoot E (LeavesInput.leafSet ⟨[d], alg⟩) ov = Except.ok d ∧
    buildMerkleRootCount E (LeavesInput.leafSet ⟨[d], alg⟩) ov = 0 := by
  have h := supported_ne_empty halg
  constructor
  · rw [buildMerkleRoot_leafSet E _ _ h]
    simp [buildRootFrom, reduceLevels]
  · simp [buildMerkleRootCount, h, reduceLevelsCount]

/-- Witness for C6 at a concrete input. -/
theorem single_leaf_root_witness :
    buildMerkleRoot testEnv (LeavesInput.leafSet ⟨["d"], "sha256"⟩) none = Except.ok "d" ∧
    buildMerkleRootCount testEnv (LeavesInput.leafSet ⟨["d"], "sha256"⟩) none = 0 :=
  single_leaf_root testEnv "d" "sha256" none (Or.inl rfl)

/-- Claim C7: combineHashes is order-independent, for all digests including
equal ones and for every algorithm, because the two inputs are sorted before
concatenation and hashing. -/
theorem combine_order_independent (E : Env) (a b algorithm : String) :
    combineHashes E a b algorithm = combineHashes E b a algorithm := by
  simp only [combineHashes, sortPair_comm a b]

/-- Claim C9: buildMerkleRoot is deterministic — two calls on leaf sets
carrying the same digest sequence and the same algorithm return the same
result (the override argument is ignored for object inputs). -/
theorem build_root_deterministic (E : Env) (ls1 ls2 : LeafSet) (ov1 ov2 : Option String)
    (hh : ls1.hashes = ls2.hashes) (ha : ls1.algorithm = ls2.algorithm)
    (hne : ls1.hashes ≠ []) :
    buildMerkleRoot E (LeavesInput.leafSet ls1) ov1 =
      buildMerkleRoot E (LeavesInput.leafSet ls2) ov2 := by
  cases ls1
  cases ls2
  cases hh
  cases ha
  rfl

/-- Witness for C9 at a concrete input. -/
theorem build_root_deterministic_witness :
    (["u", "v"] : List String) = ["u", "v"] ∧
    (["u", "v"] : List String) ≠ [] ∧
    buildMerkleRoot testEnv (LeavesInput.leafSet ⟨["u", "v"], "sha256"⟩) none =
      buildMerkleRoot testEnv (LeavesInput.leafSet ⟨["u", "v"], "sha256"⟩) (some "keccak256") :=
  ⟨rfl, by decide,
   build_root_deterministic testEnv ⟨["u", "v"], "sha256"⟩ ⟨["u", "v"], "sha256"⟩
     none (some "keccak256") rfl rfl (by decide)⟩

/-- Claim C10: one pairing pass sends a level of n nodes to one of
ceiling n / 2 nodes, strictly fewer when n is at least 2, so the loop
reaches a single node after finitely many passes on every non-empty level. -/
theorem level_reduction_terminates (E : Env) (algorithm : String) (l : List String) :
    (2 ≤ l.length →
      (processLevel E algorithm l).length = (l.length + 1) / 2 ∧
      (processLevel E algorithm l).length < l.length) ∧
    (l ≠ [] → (reduceLevels E algorithm l).length = 1) := by
  refine ⟨fun h => ⟨processLevel_length E algorithm l, ?_⟩, reduceLevels_length E algorithm l⟩
  rw [processLevel_length]
  omega

/-- Witness for C10 at a concrete input. -/
theorem level_reduction_terminates_witness :
    2 ≤ (["x", "y", "z"] : List String).length ∧
    (["x", "y", "z"] : List String) ≠ [] ∧
    (processLevel testEnv "sha256" ["x", "y", "z"]).length =
      ((["x", "y", "z"] : List String).length + 1) / 2 ∧
    (processLevel testEnv "sha256" ["x", "y", "z"]).length <
      (["x", "y", "z"] : List String).length ∧
    (reduceLevels testEnv "sha256" ["x", "y", "z"]).length = 1 :=
  ⟨by decide, by decide,
   ((level_reduction_terminates testEnv "sha256" ["x", "y", "z"]).1 (by decide)).1,
   ((level_reduction_terminates testEnv "sha256" ["x", "y", "z"]).1 (by decide)).2,
   (level_reduction_terminates testEnv "sha256" ["x", "y", "z"]).2 (by decide)⟩

/-- Claim C8: an empty leaf sequence makes buildMerkleRoot fail with the
empty-array error (whether it arrives as a tagged object or as a bare
array), and every failing call of buildMerkleRoot performs zero
combineHashes invocations — failure precedes all combination work. -/
theorem empty_input_fail_fast (E : Env) (alg : String) (ov : Option String)
    (input : LeavesInput) (e : JsError)
    (halg : alg ≠ "") (herr : buildMerkleRoot E input ov = Except.error e) :
    buildMerkleRoot E (LeavesInput.leafSet ⟨[], alg⟩) ov = Except.error JsError.emptyInput ∧
    buildMerkleRoot E (LeavesInput.plainArray []) ov = Except.error JsError.emptyInput ∧
    buildMerkleRootCount E input ov = 0 := by
  refine ⟨?_, ?_, ?_⟩
  · rw [buildMerkleRoot_leafSet E _ _ halg]
    simp [buildRootFrom]
  · simp [buildMerkleRoot, buildRootFrom]
  · cases input with
    | other => rfl
    | leafSet ls =>
      by_cases h1 : ls.algorithm = ""
      · simp [buildMerkleRootCount, h1]
      · by_cases h2 : ls.hashes.length = 0
        · simp [buildMerkleRootCount, h1, h2]
        · rw [buildMerkleRoot_leafSet E ls ov h1] at herr
          simp [buildRootFrom, h2] at herr
    | plainArray hashes =>
      by_cases h2 : hashes.length = 0
      · simp [buildMerkleRootCount, h2]
      · simp [buildMerkleRoot, buildRootFrom, h2] at herr

/-- Witness for C8 at concrete inputs. -/
theorem empty_input_fail_fast_witness :
    ("sha256" : String) ≠ "" ∧
    buildMerkleRoot testEnv (LeavesInput.plainArray []) none = Except.error JsError.emptyInput ∧
    buildMerkleRoot testEnv (LeavesInput.leafSet ⟨[], "sha256"⟩) none =
      Except.error JsError.emptyInput ∧
    buildMerkleRootCount testEnv (LeavesInput.plainArray []) none = 0 := by
  have h := empty_input_fail_fast testEnv "sha256" none (LeavesInput.plainArray [])
    JsError.emptyInput (by decide) rfl
  exact ⟨by decide, h.2.1, h.1, h.2.2⟩

/-- Claim C1 counterexample: with the unsupported identifier "md5",
combineHashes silently produces a keccak256 digest, buildMerkleRoot
succeeds on a tagged pair, and the random generator returns successfully
when its loop runs zero iterations — none of them raise the
unsupported-algorithm error the claim demands of every entry point. -/
theorem unsupported_algorithm_counterexample :
    combineHashes testEnv "0xaa" "0xbb" "md5" = "K:0xaa0xbb" ∧
    buildMerkleRoot testEnv (LeavesInput.leafSet ⟨["0xaa", "0xbb"], "md5"⟩) none =
      Except.ok "K:0xaa0xbb" ∧
    generateRandomHashes testEnv 0 "md5" = Except.ok ⟨[], "md5"⟩ := by
  refine ⟨combineHashes_eval "md5" (by decide), ?_, rfl⟩
  rw [root_pair testEnv "0xaa" "0xbb" "md5" none (by decide)]
  exact congrArg Except.ok (combineHashes_eval "md5" (by decide))

/-- Claim C1 (amended): hashString rejects an unsupported algorithm
identifier, and generateRandomHashes rejects it whenever count is at least 1
(its check sits inside the loop body, so a non-positive count skips it);
combineHashes and buildMerkleRoot perform no validation — combineHashes
treats every identifier other than "sha256" as keccak256, and
buildMerkleRoot produces a digest on any non-empty leaf set whose algorithm
field is truthy. -/
theorem unsupported_algorithm_amended (E : Env) (text a b c : String) (hs : List String)
    (count : Int) (algo : String)
    (h1 : algo ≠ "sha256") (h2 : algo ≠ "keccak256") (h3 : algo ≠ "") :
    hashString E text algo = Except.error JsError.unsupportedAlgorithm ∧
    (1 ≤ count →
      generateRandomHashes E count algo = Except.error JsError.unsupportedAlgorithm) ∧
    combineHashes E a b algo = combineHashes E a b "keccak256" ∧
    (∃ r : String,
      buildMerkleRoot E (LeavesInput.leafSet ⟨c :: hs, algo⟩) none = Except.ok r) := by
  refine ⟨?_, ?_, combineHashes_fallback E a b algo h1, ?_⟩
  · simp [hashString, h1, h2]
  · intro hc
    obtain ⟨n, hn⟩ : ∃ n : Nat, count.toNat = n + 1 := ⟨count.toNat - 1, by omega⟩
    simp [generateRandomHashes, hn, genHashesAux, h1, h2, Except.map]
  · refine ⟨(reduceLevels E algo (c :: hs)).headD "", ?_⟩
    rw [buildMerkleRoot_leafSet E _ _ h3]
    simp [buildRootFrom]

/-- Witness for C1 (amended) at concrete inputs. -/
theorem unsupported_algorithm_amended_witness :
    ("md5" : String) ≠ "sha256" ∧ ("md5" : String) ≠ "keccak256" ∧ ("md5" : String) ≠ "" ∧
    (1 : Int) ≤ 1 ∧
    hashString testEnv "hello" "md5" = Except.error JsError.unsupportedAlgorithm ∧
    generateRandomHashes testEnv 1 "md5" = Except.error JsError.unsupportedAlgorithm ∧
    combineHashes testEnv "0xaa" "0xbb" "md5" =
      combineHashes testEnv "0xaa" "0xbb" "keccak256" ∧
    (∃ r : String,
      buildMerkleRoot testEnv (LeavesInput.leafSet ⟨["0xcc"], "md5"⟩) none = Except.ok r) := by
  have h := unsupported_algorithm_amended testEnv "hello" "0xaa" "0xbb" "0xcc" [] 1 "md5"
    (by decide) (by decide) (by decide)
  exact ⟨by decide, by decide, by decide, by decide, h.1, h.2.1 (by decide), h.2.2.1, h.2.2.2⟩

/-- Claim C2 counterexample: a bare two-element array with no override does
not fail with the invalid-input error — the keccak256 default is substituted
and a root digest is produced. -/
theorem bare_array_counterexample :
    buildMerkleRoot testEnv (LeavesInput.plainArray ["0xaa", "0xbb"]) none =
      Except.ok "K:0xaa0xbb" ∧
    buildMerkleRoot testEnv (LeavesInput.plainArray ["0xaa", "0xbb"]) none ≠
      Except.error JsError.invalidInput := by
  have hk : buildMerkleRoot testEnv (LeavesInput.plainArray ["0xaa", "0xbb"]) none =
      buildMerkleRoot testEnv (LeavesInput.leafSet ⟨["0xaa", "0xbb"], "keccak256"⟩) none := rfl
  have hroot : buildMerkleRoot testEnv (LeavesInput.plainArray ["0xaa", "0xbb"]) none =
      Except.ok "K:0xaa0xbb" := by
    rw [hk, root_pair testEnv "0xaa" "0xbb" "keccak256" none (by decide)]
    exact congrArg Except.ok (combineHashes_eval "keccak256" (by decide))
  refine ⟨hroot, ?_⟩
  intro hcontra
  rw [hroot] at hcontra
  exact Except.noConfusion hcontra

/-- Claim C2 (amended): on a bare array with no accompanying algorithm and
no override, buildMerkleRoot substitutes the default algorithm keccak256 and
proceeds exactly as on an object tagged keccak256; the invalid-input error
is raised only for inputs that are neither a hashes-and-algorithm object nor
an array. -/
theorem bare_array_default (E : Env) (hashes : List String) (ov : Option String) :
    buildMerkleRoot E (LeavesInput.plainArray hashes) none =
      buildMerkleRoot E (LeavesInput.leafSet ⟨hashes, "keccak256"⟩) none ∧
    buildMerkleRoot E LeavesInput.other ov = Except.error JsError.invalidInput :=
  ⟨rfl, rfl⟩

/-- Claim C3 counterexample: a zero count does not fail — the generation
loop runs no iterations and an empty leaf set is returned, although the
claim demands an invalid-input error for every count below 1. -/
theorem random_leaves_count_counterexample :
    generateRandomHashes testEnv 0 "sha256" = Except.ok ⟨[], "sha256"⟩ ∧
    generateRandomHashes testEnv 0 "sha256" ≠ Except.error JsError.invalidInput := by
  refine ⟨rfl, ?_⟩
  intro h
  rw [show generateRandomHashes testEnv 0 "sha256" = Except.ok ⟨[], "sha256"⟩ from rfl] at h
  exact Except.noConfusion h

/-- Claim C3 (amended): for every count at least 1 and supported algorithm,
generateRandomHashes returns a leaf set of exactly count digests tagged with
that algorithm; for every count below 1 it returns, without error, a leaf
set with an empty digest sequence tagged with that algorithm. -/
theorem random_leaves_amended (E : Env) (count : Int) (algorithm : String)
    (halg : algorithm = "sha256" ∨ algorithm = "keccak256") :
    (1 ≤ count → ∃ ls : LeafSet,
      generateRandomHashes E count algorithm = Except.ok ls ∧
      (ls.hashes.length : Int) = count ∧ ls.algorithm = algorithm) ∧
    (count < 1 → generateRandomHashes E count algorithm =
      Except.ok { hashes := [], algorithm := algorithm }) := by
  constructor
  · intro hc
    obtain ⟨hs, hok, hlen⟩ := genHashesAux_ok E algorithm halg count.toNat 0
    refine ⟨⟨hs, algorithm⟩, ?_, ?_, rfl⟩
    · simp [generateRandomHashes, hok, Except.map]
    · rw [hlen]
      omega
  · intro hc
    have h0 : count.toNat = 0 := by omega
    simp [generateRandomHashes, h0, genHashesAux, Except.map]

/-- Witness for C3 (amended) at concrete inputs. -/
theorem random_leaves_amended_witness :
    (1 : Int) ≤ 2 ∧ (0 : Int) < 1 ∧
    (∃ ls : LeafSet, generateRandomHashes testEnv 2 "sha256" = Except.ok ls ∧
      (ls.hashes.length : Int) = 2 ∧ ls.algorithm = "sha256") ∧
    generateRandomHashes testEnv 0 "sha256" =
      Except.ok { hashes := [], algorithm := "sha256" } := by
  have h2 := random_leaves_amended testEnv 2 "sha256" (Or.inl rfl)
  have h0 := random_leaves_amended testEnv 0 "sha256" (Or.inl rfl)
  exact ⟨by decide, by decide, h2.1 (by decide), h0.2 (by decide)⟩

end Merkle
